import Mathlib

/-!
Shallow embedding of the `multibar` terminal progress-bar library
(files `multibar.go` and `bar.go` of the current revision).

Modelling conventions:
* Go `int64` / `int` values are modelled as `Int` (with `Int.tdiv` / `Int.tmod`
  for Go's truncating `/` and `%`); list lengths and widths that are provably
  non-negative are modelled as `Nat`.
* `time.Time` instants are modelled as `Int` nanoseconds; the zero `time.Time`
  (whose `IsZero` is queried for `updatedAt` and `lastRender`) is modelled as
  `Option Int` with `none` for the zero value.  Every operation that calls
  `time.Now()` takes the current instant as an explicit `now` argument.
* Go panics are modelled as `none` and propagated through the render
  pipeline.  Two panic classes are reachable: `strings.Repeat` with a
  negative count (the `filledStr` call site in `buildProgressBar`; all other
  call sites are guarded by explicit clamps in the source and use plain
  repetition), and integer division by zero (`goDiv`) when `max = 0` — in
  the percent column (reached only when not finished, since the finished
  check precedes the division) and in `buildProgressBar`'s `filledUnits`
  (reached in every render of a `max = 0` bar, since it is computed before
  the `isFinished` check).  Divisions by non-zero constants use `tdiv`
  directly, and the `value % totalUnits` in the indeterminate branch sits
  behind the source's `totalUnits <= 0` guard.
* The ETA computation uses `float64` arithmetic in the source
  (`float64(elapsed) * float64(max) / float64(value)`); it is modelled with
  exact integer arithmetic.  No theorem below depends on the ETA digits.
* The per-bar `sync.Mutex` makes each mutation atomic; sequential state
  transformers model the mutations.
-/

/-- `Undefined` sentinel: a bar whose total is unknown (`const Undefined = -1`). -/
def Undefined : Int := -1

/-- ANSI escape: reset all attributes. -/
def colorReset : String := "\x1b[0m"

/-- ANSI escape: red foreground. -/
def colorRed : String := "\x1b[31m"

/-- ANSI escape: green foreground. -/
def colorGreen : String := "\x1b[32m"

/-- ANSI escape: yellow foreground. -/
def colorYellow : String := "\x1b[33m"

/-- ANSI escape: magenta foreground. -/
def colorMagenta : String := "\x1b[35m"

/-- ANSI escape: cyan foreground. -/
def colorCyan : String := "\x1b[36m"

/-- ANSI escape: reverse video on. -/
def invertOn : String := "\x1b[7m"

/-- ANSI escape: reverse video off. -/
def invertOff : String := "\x1b[27m"

/-- The cell glyphs: empty, seven partial blocks, full block
(`partialBlocks = []rune{' ', '▏', '▎', '▍', '▌', '▋', '▊', '▉', '█'}`). -/
def partialBlocks : List String := [" ", "▏", "▎", "▍", "▌", "▋", "▊", "▉", "█"]

/-- The ten spinner glyphs. -/
def spinners : List String := ["⠋", "⠙", "⠹", "⠸", "⠼", "⠴", "⠦", "⠧", "⠇", "⠏"]

/-- Repeat a string a (non-negative) number of times. -/
def repeatStr (s : String) (n : Nat) : String := String.join (List.replicate n s)

/-- Go's `strings.Repeat`: panics (modelled as `none`) on a negative count. -/
def goRepeat (s : String) (n : Int) : Option String :=
  if n < 0 then none else some (repeatStr s n.toNat)

/-- Go's integer division: panics (modelled as `none`) when the divisor is
zero; otherwise truncates toward zero. -/
def goDiv (a b : Int) : Option Int :=
  if b = 0 then none else some (a.tdiv b)

/-- Go's `fmt.Sprintf("%<w>d", n)`: decimal, right-aligned in a field of
width `w` padded with spaces (wider numbers are not truncated). -/
def goPadSpace (w : Nat) (n : Int) : String :=
  let s := toString n
  repeatStr " " (w - s.length) ++ s

/-- Go's `fmt.Sprintf("%0<w>d", n)`: decimal, zero-padded to width `w`,
zeros inserted after the sign. -/
def goPadZero (w : Nat) (n : Int) : String :=
  let digits := toString n.natAbs
  let sign := if n < 0 then "-" else ""
  sign ++ repeatStr "0" (w - (sign.length + digits.length)) ++ digits

/-- `formatDuration`: `H:MM:SS` from a duration in nanoseconds.
The source truncates `d.Seconds()` (a `float64`) to `int64`; modelled as
exact truncating integer division by 10^9. -/
def formatDuration (d : Int) : String :=
  let totalSeconds := d.tdiv 1000000000
  let hours := totalSeconds.tdiv 3600
  let minutes := (totalSeconds.tmod 3600).tdiv 60
  let seconds := totalSeconds.tmod 60
  toString hours ++ ":" ++ goPadZero 2 minutes ++ ":" ++ goPadZero 2 seconds

/-- The state of one progress bar (struct `Bar` in `bar.go`), without the
back-reference to the coordinator and the mutex. -/
structure Bar where
  value : Int
  max : Int
  startedAt : Int
  updatedAt : Option Int
  description : String
  finished : Bool
deriving Repr, DecidableEq

/-- `Bar.label`: the effective label, substituting `"Working"` for an empty
description. -/
def Bar.label (b : Bar) : String :=
  if b.description = "" then "Working" else b.description

/-- `Bar.Reset`: value = 0, startedAt = updatedAt = now. -/
def Bar.Reset (b : Bar) (now : Int) : Bar :=
  { b with value := 0, startedAt := now, updatedAt := some now }

/-- `Bar.SetDescription` (the bar-local part; the coordinator side then
recomputes the label width and repaints). -/
def Bar.SetDescription (b : Bar) (description : String) : Bar :=
  { b with description := description }

/-- `Bar.SetValue`: value = v, updatedAt = now. -/
def Bar.SetValue (b : Bar) (value now : Int) : Bar :=
  { b with value := value, updatedAt := some now }

/-- `Bar.SetMax`: max = m. -/
def Bar.SetMax (b : Bar) (m : Int) : Bar :=
  { b with max := m }

/-- `Bar.Add`: value += n; finished = (value == max && max != Undefined);
updatedAt = now. -/
def Bar.Add (b : Bar) (n now : Int) : Bar :=
  let v := b.value + n
  { b with value := v,
           finished := (v == b.max) && (b.max != Undefined),
           updatedAt := some now }

/-- `Bar.Finish`: no-op if already finished; else updatedAt = now,
finished = true. -/
def Bar.Finish (b : Bar) (now : Int) : Bar :=
  if b.finished then b else { b with updatedAt := some now, finished := true }

/-- `Bar.Value` getter. -/
def Bar.Value (b : Bar) : Int := b.value

/-- `Bar.Max` getter. -/
def Bar.Max (b : Bar) : Int := b.max

/-- The percent column computed inside `Bar.render` (fixed 4-character
field): `"100%"` when finished with a defined max; `%3d%%` of the truncating
integer division `value*100/max` when max is defined and not finished —
which panics (`none`) when `max = 0`, since the division runs in that
branch; four spaces when max is `Undefined`. -/
def percentString (finished : Bool) (value maxVal : Int) : Option String :=
  if finished && (maxVal != Undefined) then some "100%"
  else if maxVal != Undefined then
    match goDiv (value * 100) maxVal with
    | none => none
    | some percent => some (goPadSpace 3 percent ++ "%")
  else some "    "

/-- `Bar.buildProgressBar` (pure in the source apart from the possible
panics, modelled as `none`).
Defined max: `filledUnits = (value*width*8)/max` (truncating) is computed
*before* the `isFinished` check, so it panics for `max = 0` in every case;
then, when not finished, `fullChars = filledUnits/8` full blocks — computed
by `strings.Repeat`, which panics when `fullChars` is negative — one partial
block for the remainder if positive and room remains, the rest empty cells,
red when in error state.  Finished (either kind of max): a full green bar.
Undefined max, not finished: a tri-glyph sweep marker at unit
`value mod width*8`. -/
def Bar.buildProgressBar (value maxVal : Int) (width : Nat)
    (isFinished isError : Bool) : Option String :=
  if maxVal == Undefined then
    if isFinished then
      some (colorGreen ++ repeatStr (partialBlocks.getD 8 "") width ++ colorReset)
    else
      let totalUnits : Int := (width * 8 : Nat)
      if totalUnits ≤ 0 then some ""
      else
        let u0 := value.tmod totalUnits
        let u := if u0 < 0 then u0 + totalUnits else u0
        let center := u.tdiv 8
        let rem := u.tmod 8
        some (String.join ((List.range width).map (fun i =>
          if (i : Int) == center - 1 then
            invertOn ++ partialBlocks.getD rem.toNat "" ++ invertOff
          else if (i : Int) == center then partialBlocks.getD 8 ""
          else if (i : Int) == center + 1 then partialBlocks.getD rem.toNat ""
          else " ")))
  else
    let totalUnits : Int := (width * 8 : Nat)
    match goDiv (value * totalUnits) maxVal with
    | none => none
    | some filledUnits =>
    if isFinished then
      some (colorGreen ++ repeatStr (partialBlocks.getD 8 "") width ++ colorReset)
    else
      let fullChars0 := filledUnits.tdiv 8
      let remainder0 := filledUnits.tmod 8
      let fullChars := if fullChars0 ≥ (width : Int) then (width : Int) else fullChars0
      let remainder := if fullChars0 ≥ (width : Int) then (0 : Int) else remainder0
      match goRepeat (partialBlocks.getD 8 "") fullChars with
      | none => none
      | some filled0 =>
        let hasPartial := decide (0 < remainder) && decide (fullChars < (width : Int))
        let filledStr :=
          if hasPartial then filled0 ++ partialBlocks.getD remainder.toNat ""
          else filled0
        let extra : Int := if hasPartial then 1 else 0
        let emptyChars0 : Int := (width : Int) - fullChars - extra
        let emptyChars := if emptyChars0 < 0 then 0 else emptyChars0
        let emptyStr := repeatStr (partialBlocks.getD 0 "") emptyChars.toNat
        if isError then some (colorRed ++ filledStr ++ emptyStr ++ colorReset)
        else some (filledStr ++ emptyStr)

/-- `Bar.render`: the full line for one bar, from a state snapshot, the
coordinator-supplied spinner glyph and label width.  Returns `none` when
`buildProgressBar` panics. -/
def Bar.render (b : Bar) (now : Int) (spinner : String)
    (maxLabelLength : Nat) : Option String :=
  let isError := (b.max != Undefined) && decide (b.max < b.value)
  let description := if b.description = "" then "Working" else b.description
  match percentString b.finished b.value b.max with
  | none => none
  | some percentStr =>
  let elapsed :=
    if b.finished then
      match b.updatedAt with
      | some u => u - b.startedAt
      | none => now - b.startedAt
    else now - b.startedAt
  let estimatedStr0 :=
    if b.finished then "       "
    else if (b.max != Undefined) && decide (0 < b.value) then
      formatDuration ((elapsed * b.max).tdiv b.value)
    else "       "
  let estimatedStr :=
    if estimatedStr0.length < 7 && decide (0 < b.max) then " " ++ estimatedStr0
    else estimatedStr0
  match Bar.buildProgressBar b.value b.max 30 b.finished isError with
  | none => none
  | some barStr =>
    let spinner1 := if b.finished then " " else spinner
    let descLen := description.length
    let labelOut := description ++ repeatStr " " (maxLabelLength - descLen)
    let spinnerOut :=
      if isError then colorRed ++ spinner1 ++ colorReset
      else if b.finished then colorGreen ++ spinner1 ++ colorReset
      else spinner1
    some (spinnerOut ++ " " ++ labelOut ++ " " ++ barStr ++ " " ++
      (colorMagenta ++ percentStr ++ colorReset) ++ " " ++
      (colorYellow ++ formatDuration elapsed ++ colorReset) ++ " " ++
      (colorCyan ++ estimatedStr ++ colorReset))

/-- The coordinator state (struct `MultiBar` in `multibar.go`), with the
output writer abstracted away: render operations return the list of writes. -/
structure MultiBar where
  bars : List Bar
  spinnerIndex : Nat
  lastRender : Option Int
  maxLabelLength : Nat
  renderedLines : Nat
deriving Repr, DecidableEq

/-- `New()`: all fields at their zero values. -/
def MultiBar.New : MultiBar :=
  { bars := [], spinnerIndex := 0, lastRender := none,
    maxLabelLength := 0, renderedLines := 0 }

/-- `updateMaxLabelLength`: reset to 0, then take every bar's effective
label's code-point count when it exceeds the running maximum. -/
def MultiBar.updateMaxLabelLength (m : MultiBar) : MultiBar :=
  let len :=
    m.bars.foldl (fun acc b => if b.label.length > acc then b.label.length else acc) 0
  { m with maxLabelLength := len }

/-- `NewBar64`: append a fresh bar (value 0, zero `updatedAt`, not finished,
`startedAt = now`) and recompute the label width.  (`NewBar` delegates here.) -/
def MultiBar.NewBar64 (m : MultiBar) (maxValue : Int) (description : String)
    (now : Int) : MultiBar :=
  MultiBar.updateMaxLabelLength
    { m with bars := m.bars ++
        [{ value := 0, max := maxValue, startedAt := now, updatedAt := none,
           description := description, finished := false }] }

/-- `spinnerRenderInterval = 100 * time.Millisecond`, in nanoseconds. -/
def spinnerRenderInterval : Int := 100000000

/-- The ANSI cursor-up-N-lines sequence written before a repaint. -/
def cursorUp (n : Nat) : String := "\x1b[" ++ toString n ++ "A"

/-- The render loop body: one line per bar, in registration order, aborting
(`none`) when a bar's render panics. -/
def renderLines (bars : List Bar) (now : Int) (spinner : String)
    (maxLabelLength : Nat) : Option (List String) :=
  match bars with
  | [] => some []
  | b :: rest =>
    match Bar.render b now spinner maxLabelLength,
          renderLines rest now spinner maxLabelLength with
    | some s, some ss => some (s :: ss)
    | _, _ => none

/-- `MultiBar.render`: advance the spinner when `lastRender` is zero or at
least `spinnerRenderInterval` has passed since it; emit the cursor-up
sequence unless this is the first paint; then one line (with terminator) per
bar; record the new line count.  The returned list is the sequence of writes
to the output stream. -/
def MultiBar.render (m : MultiBar) (now : Int) : Option (MultiBar × List String) :=
  let advance := m.lastRender.isNone ||
    decide (spinnerRenderInterval ≤ now - m.lastRender.getD 0)
  let si := if advance then (m.spinnerIndex + 1) % spinners.length
            else m.spinnerIndex
  let lr := if advance then some now else m.lastRender
  let pre : List String :=
    if 0 < m.renderedLines then [cursorUp m.renderedLines] else []
  match renderLines m.bars now (spinners.getD si "") m.maxLabelLength with
  | none => none
  | some lines =>
    some ({ m with spinnerIndex := si, lastRender := lr,
                   renderedLines := m.bars.length },
          pre ++ lines.map (fun s => s ++ "\n"))

/-- `Bar.SetDescription` as seen at the coordinator, for the bar at index
`i`: update the description, then recompute the label width.  (The repaint
that follows touches neither `bars` nor `maxLabelLength`.) -/
def MultiBar.SetDescriptionAt (m : MultiBar) (i : Nat) (s : String) : MultiBar :=
  match m.bars.get? i with
  | some b =>
    MultiBar.updateMaxLabelLength
      { m with bars := m.bars.set i (b.SetDescription s) }
  | none => m

/-- A sequence of `Add` calls: each element is the pair (n, now). -/
def applyAdds (b : Bar) (l : List (Int × Int)) : Bar :=
  l.foldl (fun s p => s.Add p.1 p.2) b

lemma applyAdds_undefined : ∀ (l : List (Int × Int)) (b : Bar),
    b.max = Undefined → b.finished = false → (applyAdds b l).finished = false := by
  intro l
  induction l with
  | nil => intro b _ hf; simpa [applyAdds] using hf
  | cons p t ih =>
    intro b hm _
    have h1 : applyAdds b (p :: t) = applyAdds (b.Add p.1 p.2) t := rfl
    rw [h1]
    apply ih
    · simpa [Bar.Add] using hm
    · simp [Bar.Add, hm]

/-- C1: after every `Add(n)` call the finished flag equals
`(value == max && max != Undefined)`, computed from the updated value — so
overshooting a defined max leaves it false — and on a bar whose max is
`Undefined`, no sequence of `Add` calls starting from an unfinished state
ever makes `finished` true. -/
theorem C1_add_finished (b : Bar) (n now : Int) (l : List (Int × Int)) :
    ((b.Add n now).finished = ((b.value + n == b.max) && (b.max != Undefined)))
    ∧ (applyAdds { b with max := Undefined, finished := false } l).finished = false :=
  ⟨rfl, applyAdds_undefined l _ rfl rfl⟩

/-- C4 counterexample: on a bar with `max = 10`, `Add(10)` sets `finished`,
and a further `Add(1)` resets it to false — `finished` is not monotonic. -/
theorem C4_counterexample :
    ((({ value := 0, max := 10, startedAt := 0, updatedAt := none,
         description := "x", finished := false } : Bar).Add 10 1).finished = true)
    ∧ (((({ value := 0, max := 10, startedAt := 0, updatedAt := none,
            description := "x", finished := false } : Bar).Add 10 1).Add 1 2).finished
        = false) := by
  decide

/-- C4 (amended): `finished` is monotonic under `SetValue`, `SetMax`,
`SetDescription`, `Reset` and `Finish` — none of them clears it — but `Add`
recomputes it from scratch, so an `Add` that leaves the value different from
a defined max (or any `Add` on an `Undefined`-max bar) resets it to false. -/
theorem C4_finished_monotone_except_add (b : Bar) (v m now : Int) (d : String) :
    (({ b with finished := true } : Bar).SetValue v now).finished = true
    ∧ (({ b with finished := true } : Bar).SetMax m).finished = true
    ∧ (({ b with finished := true } : Bar).SetDescription d).finished = true
    ∧ (({ b with finished := true } : Bar).Reset now).finished = true
    ∧ (({ b with finished := true } : Bar).Finish now).finished = true := by
  refine ⟨rfl, rfl, rfl, rfl, ?_⟩
  simp [Bar.Finish]

/-- C6: `Finish()` is idempotent — the second call returns the state of the
first unchanged, in particular with the same `updatedAt`. -/
theorem C6_finish_idempotent (b : Bar) (t1 t2 : Int) :
    (b.Finish t1).Finish t2 = b.Finish t1 := by
  unfold Bar.Finish
  by_cases h : b.finished <;> simp [h]

/-- C10: `Finish()` changes only `finished` and `updatedAt`: value, max,
description and startedAt are untouched, and `Value()` afterwards still
returns the (possibly partial) count. -/
theorem C10_finish_frame (b : Bar) (now : Int) :
    (b.Finish now).value = b.value ∧ (b.Finish now).max = b.max
    ∧ (b.Finish now).description = b.description
    ∧ (b.Finish now).startedAt = b.startedAt
    ∧ (b.Finish now).Value = b.Value := by
  unfold Bar.Finish Bar.Value
  by_cases h : b.finished <;> simp [h]

/-- C2 counterexample: two reachable states refute the claim's case split.
A finished bar whose max is `Undefined` — reachable via
`NewBar(Undefined, ...)` then `Finish()` — renders four spaces in the
percent column, not `"100%"` as the claim's first case states; and an
unfinished bar with defined `max = 0` — reachable via `NewBar(0, ...)` —
does not render any 3-digit percentage: the division `value*100/max` panics. -/
theorem C2_counterexample :
    (({ value := 0, max := Undefined, startedAt := 0, updatedAt := none,
        description := "", finished := false } : Bar).Finish 5).finished = true
    ∧ percentString true 0 Undefined = some "    "
    ∧ percentString true 0 Undefined ≠ some "100%"
    ∧ percentString false 5 0 = none := by
  refine ⟨by decide, by decide, by decide, by decide⟩

/-- C2 (amended): the percent field is `"100%"` when finished *and* max is
defined (including `max = 0`, since the finished check precedes the
division); four spaces whenever max is `Undefined` (even when finished);
when max is defined and not finished the code divides by max, which panics
for `max = 0` and otherwise yields the truncating integer division
`value*100/max`, right-aligned in 3 characters plus `"%"`.  For every finite
`max > 0` and `0 ≤ value ≤ max` the computed percentage equals
`floor(value*100/max)` and lies in `[0, 100]`. -/
theorem C2_percent (f : Bool) (value maxVal : Int) :
    (f = true → maxVal ≠ Undefined → percentString f value maxVal = some "100%")
  ∧ (f = false → maxVal ≠ Undefined → maxVal ≠ 0 →
      percentString f value maxVal
        = some (goPadSpace 3 ((value * 100).tdiv maxVal) ++ "%"))
  ∧ (f = false → percentString f value 0 = none)
  ∧ (maxVal = Undefined → percentString f value maxVal = some "    ")
  ∧ (0 < maxVal → 0 ≤ value → value ≤ maxVal →
      (value * 100).tdiv maxVal = (value * 100).fdiv maxVal
      ∧ 0 ≤ (value * 100).tdiv maxVal ∧ (value * 100).tdiv maxVal ≤ 100) := by
  refine ⟨?_, ?_, ?_, ?_, ?_⟩
  · intro hf hm; simp [percentString, hf, hm]
  · intro hf hm hz; simp [percentString, goDiv, hf, hm, hz]
  · intro hf
    have hm : (0 : Int) ≠ Undefined := by decide
    simp [percentString, goDiv, hf, hm]
  · intro hm; simp [percentString, hm]
  · intro hpos h0 h1
    have hv : (0:Int) ≤ value * 100 := by positivity
    have hm0 : (0:Int) ≤ maxVal := le_of_lt hpos
    have ht : (value * 100).tdiv maxVal = (value * 100) / maxVal :=
      Int.tdiv_eq_ediv hv hm0
    refine ⟨?_, ?_, ?_⟩
    · rw [ht, Int.fdiv_eq_ediv _ hm0]
    · rw [ht]; exact Int.ediv_nonneg hv hm0
    · rw [ht]
      have hle : value * 100 ≤ maxVal * 100 := by nlinarith
      calc value * 100 / maxVal ≤ maxVal * 100 / maxVal := Int.ediv_le_ediv hpos hle
        _ = 100 := by rw [mul_comm]; exact Int.mul_ediv_cancel 100 (ne_of_gt hpos)

/-- C2 witness: the amended theorem instantiated at `value = 69`,
`max = 100`, not finished, plus the panic clause at `max = 0`. -/
theorem C2_percent_witness :
    percentString false 69 100 = some (goPadSpace 3 ((69 * 100 : Int).tdiv 100) ++ "%")
    ∧ percentString false 69 0 = none
    ∧ ((69:Int) * 100).tdiv 100 = ((69:Int) * 100).fdiv 100
    ∧ (0:Int) ≤ ((69:Int) * 100).tdiv 100 ∧ ((69:Int) * 100).tdiv 100 ≤ 100 := by
  obtain ⟨-, h2, h3, -, h4⟩ := C2_percent false 69 100
  obtain ⟨h41, h42, h43⟩ := h4 (by decide) (by decide) (by decide)
  exact ⟨h2 rfl (by decide) (by decide), h3 rfl, h41, h42, h43⟩

/-- A fresh bar with max 10 (as created by `NewBar(10, "x")`). -/
def c3bar : Bar :=
  { value := 0, max := 10, startedAt := 0, updatedAt := none,
    description := "x", finished := false }

/-- C3: refuted by the code — `Add(-1)` on a fresh bar with defined max 10
drives `value` to −1; the repaint triggered by that very `Add` then calls
`buildProgressBar(-1, 10, 30, false, false)`, which computes
`fullChars = (-240/10)/8 = -3` and passes it to `strings.Repeat`, which
panics on a negative count (modelled as `none`): the render crashes instead
of degrading to a visual state. -/
theorem C3_negative_value_render_panics :
    (c3bar.Add (-1) 1).value = -1
    ∧ Bar.buildProgressBar (-1) 10 30 false false = none
    ∧ Bar.render (c3bar.Add (-1) 1) 1 "⠋" 1 = none := by
  refine ⟨by decide, by decide, by decide⟩

/-- One line per bar, in order; aborts when a bar's render panics. -/
lemma renderLines_length : ∀ (bars : List Bar) (now : Int) (sp : String)
    (mll : Nat) (ls : List String),
    renderLines bars now sp mll = some ls → ls.length = bars.length := by
  intro bars
  induction bars with
  | nil => intro now sp mll ls h; simp [renderLines] at h; simp [← h]
  | cons b rest ih =>
    intro now sp mll ls h
    simp only [renderLines] at h
    cases hb : Bar.render b now sp mll with
    | none => rw [hb] at h; simp at h
    | some s =>
      rw [hb] at h
      cases hr : renderLines rest now sp mll with
      | none => rw [hr] at h; simp at h
      | some ss =>
        rw [hr] at h
        simp at h
        subst h
        simp [ih now sp mll ss hr]

/-- A coordinator that has already painted once (`renderedLines = 1`,
`lastRender = some 100`), holding one unfinished bar. -/
def c5mb : MultiBar :=
  { bars := [{ value := 0, max := 10, startedAt := 0, updatedAt := none,
               description := "x", finished := false }],
    spinnerIndex := 0, lastRender := some 100,
    maxLabelLength := 1, renderedLines := 1 }

/-- C5 counterexample: a repaint request issued at the very instant of the
previous render (`now = 100 = lastRender`, zero elapsed — within any positive
throttle window — and not a first paint, since `renderedLines = 1`) is *not*
skipped: it writes two chunks (the cursor-up sequence and the bar's full
line). -/
theorem C5_counterexample :
    c5mb.lastRender = some 100 ∧ 0 < c5mb.renderedLines
    ∧ (c5mb.render 100).map (fun r => r.2.length) = some 2 := by
  refine ⟨rfl, by decide, by decide⟩

/-- C5 (amended): repaint requests are never throttled — every call of the
coordinator's render repaints in full, emitting the cursor-up sequence
(except on a first paint) plus one line per registered bar, regardless of
how little time has passed since `lastRenderAt`; the 100 ms
`spinnerRenderInterval` gates only the spinner-phase advance. -/
theorem C5_render_never_skips (m : MultiBar) (now : Int) :
    (m.render now).map (fun r => (r.2.length, r.1.renderedLines))
      = (m.render now).map (fun _ =>
          ((if 0 < m.renderedLines then 1 else 0) + m.bars.length, m.bars.length)) := by
  unfold MultiBar.render
  dsimp only
  split
  · rfl
  next ls heq =>
    have hlen := renderLines_length _ _ _ _ _ heq
    simp [hlen, apply_ite List.length]

/-- The maximum, over a list of bars, of the Unicode code-point count of each
bar's effective label (description, with `"Working"` substituted for the
empty string) — stated from the spec's words, independently of the
`updateMaxLabelLength` loop, as a fold of `Nat.max`. -/
def specMaxLabel (bars : List Bar) : Nat :=
  (bars.map (fun b => b.label.length)).foldr Nat.max 0

/-- The two public operations that touch the coordinator's label state:
bar registration (`NewBar`/`NewBar64`) and `SetDescription` on the bar at a
given index. -/
inductive LabelOp where
  | register (maxValue : Int) (description : String) (now : Int)
  | describe (i : Nat) (s : String)

/-- Apply one label-state operation. -/
def MultiBar.applyLabelOp (m : MultiBar) : LabelOp → MultiBar
  | .register mx d now => m.NewBar64 mx d now
  | .describe i s => m.SetDescriptionAt i s

/-- Apply a sequence of label-state operations in order. -/
def MultiBar.applyLabelOps (m : MultiBar) (ops : List LabelOp) : MultiBar :=
  ops.foldl MultiBar.applyLabelOp m

lemma if_gt_eq_max (a b : Nat) : (if b > a then b else a) = Nat.max a b := by
  by_cases h : a < b
  · simp [h, Nat.max_eq_right (Nat.le_of_lt h)]
  · simp [h, Nat.max_eq_left (Nat.le_of_not_lt h)]

lemma foldl_label_eq (l : List Bar) : ∀ acc : Nat,
    l.foldl (fun acc b => if b.label.length > acc then b.label.length else acc) acc
      = Nat.max acc ((l.map (fun b => b.label.length)).foldr Nat.max 0) := by
  induction l with
  | nil => intro acc; simp
  | cons x xs ih =>
    intro acc
    simp only [List.foldl_cons, List.map_cons, List.foldr_cons]
    rw [ih, if_gt_eq_max]
    exact Nat.max_assoc _ _ _

lemma updateMaxLabelLength_spec (m : MultiBar) :
    (m.updateMaxLabelLength).maxLabelLength = specMaxLabel m.bars := by
  simp [MultiBar.updateMaxLabelLength, specMaxLabel, foldl_label_eq]

lemma updateMaxLabelLength_bars (m : MultiBar) :
    (m.updateMaxLabelLength).bars = m.bars := rfl

/-- The C7 invariant: the stored width agrees with the recomputed maximum. -/
def labelInv (m : MultiBar) : Prop := m.maxLabelLength = specMaxLabel m.bars

lemma applyLabelOp_inv (m : MultiBar) (op : LabelOp) (h : labelInv m) :
    labelInv (m.applyLabelOp op) := by
  cases op with
  | register mx d now =>
    show labelInv (m.NewBar64 mx d now)
    unfold MultiBar.NewBar64 labelInv
    rw [updateMaxLabelLength_spec, updateMaxLabelLength_bars]
  | describe i s =>
    show labelInv (m.SetDescriptionAt i s)
    unfold MultiBar.SetDescriptionAt
    cases hg : m.bars.get? i with
    | none => simpa [labelInv] using h
    | some b =>
      unfold labelInv
      rw [updateMaxLabelLength_spec, updateMaxLabelLength_bars]

lemma applyLabelOps_inv (ops : List LabelOp) : ∀ m, labelInv m →
    labelInv (m.applyLabelOps ops) := by
  induction ops with
  | nil => intro m h; simpa [MultiBar.applyLabelOps] using h
  | cons op t ih =>
    intro m h
    have hstep : m.applyLabelOps (op :: t) = (m.applyLabelOp op).applyLabelOps t := rfl
    rw [hstep]
    exact ih _ (applyLabelOp_inv m op h)

/-- C7: after any sequence of bar registrations and `SetDescription` calls,
the coordinator's `maxLabelLength` equals the maximum over all registered
bars of the code-point count of each bar's effective label (with `"Working"`
substituted for an empty description). -/
theorem C7_maxLabelLength_correct (ops : List LabelOp) :
    (MultiBar.New.applyLabelOps ops).maxLabelLength
      = specMaxLabel (MultiBar.New.applyLabelOps ops).bars :=
  applyLabelOps_inv ops MultiBar.New rfl

lemma label_le_specMaxLabel : ∀ (bars : List Bar) (b : Bar), b ∈ bars →
    b.label.length ≤ specMaxLabel bars := by
  intro bars
  induction bars with
  | nil => intro b hb; simp at hb
  | cons x xs ih =>
    intro b hb
    rcases List.mem_cons.1 hb with h | h
    · subst h
      simp only [specMaxLabel, List.map_cons, List.foldr_cons]
      exact Nat.le_max_left _ _
    · have hle := ih b h
      simp only [specMaxLabel, List.map_cons, List.foldr_cons] at hle ⊢
      exact le_trans hle (Nat.le_max_right _ _)

/-- C8 counterexample: one registered bar with description `"Longer"` gives
width 6; a `SetDescription("A")` on it recomputes the width down to 1 — the
width after the recompute is *not* ≥ the width before it. -/
theorem C8_counterexample :
    ¬ ((MultiBar.New.NewBar64 10 "Longer" 0).maxLabelLength ≤
       ((MultiBar.New.NewBar64 10 "Longer" 0).SetDescriptionAt 0 "A").maxLabelLength) := by
  decide

/-- C8 (amended): `SetDescription` triggers a full recompute of the label
width from scratch: afterwards the width equals the maximum effective-label
code-point count over all registered bars — hence it is at least the updated
bar's own new effective-label length — but it may be strictly smaller than
the width before the call (it shrinks when the longest label is shortened). -/
theorem C8_setDescription_recomputes (m : MultiBar) (i : Nat) (s : String)
    (h : i < m.bars.length) :
    (m.SetDescriptionAt i s).maxLabelLength
      = specMaxLabel (m.SetDescriptionAt i s).bars
    ∧ (if s = "" then "Working" else s).length
        ≤ (m.SetDescriptionAt i s).maxLabelLength := by
  have hg : m.bars.get? i = some m.bars[i] := by
    rw [List.get?_eq_getElem?, List.getElem?_eq_getElem h]
  constructor
  · unfold MultiBar.SetDescriptionAt
    rw [hg, updateMaxLabelLength_spec, updateMaxLabelLength_bars]
  · unfold MultiBar.SetDescriptionAt
    rw [hg, updateMaxLabelLength_spec]
    have hlen : i < (m.bars.set i (m.bars[i].SetDescription s)).length := by
      simpa using h
    have hget : (m.bars.set i (m.bars[i].SetDescription s))[i] = m.bars[i].SetDescription s :=
      List.getElem_set_self hlen
    have hmem := List.getElem_mem hlen
    rw [hget] at hmem
    have hle := label_le_specMaxLabel _ _ hmem
    simpa [Bar.label, Bar.SetDescription] using hle

/-- C8 witness: the amended theorem instantiated on the concrete
single-bar coordinator of the counterexample. -/
theorem C8_setDescription_recomputes_witness :
    ((MultiBar.New.NewBar64 10 "Longer" 0).SetDescriptionAt 0 "A").maxLabelLength
      = specMaxLabel ((MultiBar.New.NewBar64 10 "Longer" 0).SetDescriptionAt 0 "A").bars
    ∧ (if ("A" : String) = "" then "Working" else "A").length
        ≤ ((MultiBar.New.NewBar64 10 "Longer" 0).SetDescriptionAt 0 "A").maxLabelLength :=
  C8_setDescription_recomputes (MultiBar.New.NewBar64 10 "Longer" 0) 0 "A" (by decide)
